import Mathlib

namespace SQM

/-
Verification of the SQM_GPS_Logger acquisition core (src/logging/main.py)
against its design specification.

The Python source is shallowly embedded: pure computations become Lean
functions, the serial channels become lists or streams of already-read
lines, the shared Settings store becomes a time-indexed valuation (one
tick per atomic access), the trigger Event becomes a boolean flag with a
pulse schedule, and the durable CSV writer becomes an explicit file state
with separate application-buffer / OS-cache / stable-storage stages.
-/

/-- Python string slice `s[a:b]` for non-negative bounds: out-of-range
bounds are clipped, never an error. -/
def pySlice (s : String) (a b : Nat) : String :=
  String.mk ((s.toList.drop a).take (b - a))

/-- Python `str.zfill(w)` on a plain digit string: left-pad with zeros. -/
def zfill (s : String) (w : Nat) : String :=
  String.mk (List.replicate (w - s.length) '0') ++ s

/-- One CSV line: fields joined by the comma delimiter (as the csv writer
configured with `delimiter=','` produces). -/
def csvLine (fields : List String) : String := String.intercalate "," fields

/-- The `SQMReading` frozen dataclass: brightness, frequency, count,
period, temperature, each a substring of one device response line. -/
structure SQMReading where
  brightness : String
  frequency : String
  count : String
  period : String
  temperature : String
deriving DecidableEq, Repr

/-- `get_sqm_data`, pure part: the device response line (already read and
stripped) is sliced at fixed character offsets. From main.py lines 361-365. -/
def get_sqm_data (response : String) : SQMReading :=
  { brightness := pySlice response 2 8
  , frequency := pySlice response 10 20
  , count := pySlice response 23 33
  , period := pySlice response 35 46
  , temperature := pySlice response 49 54 }

/-! ### Durable record writer (`SafeDictWriter`) -/

/-- State of one open file: the full sequence of lines handed to `write`,
the count pushed to the OS by `flush`, and the count forced to stable
storage by `fsync`. -/
structure FileState where
  lines : List String
  flushed : Nat
  synced : Nat
deriving DecidableEq, Repr

/-- Append one line to the file (buffered in-process). -/
def FileState.write (f : FileState) (l : String) : FileState :=
  { f with lines := f.lines ++ [l] }

/-- `file.flush()`: push the whole in-process buffer to the OS. -/
def FileState.flush (f : FileState) : FileState :=
  { f with flushed := f.lines.length }

/-- `os.fsync(fileno)`: force everything the OS holds to stable storage. -/
def FileState.fsync (f : FileState) : FileState :=
  { f with synced := f.flushed }

/-- The lines that survive a crash / power loss right now. -/
def FileState.durable (f : FileState) : List String :=
  f.lines.take f.synced

/-- A freshly opened (mode "w", hence truncated) file. -/
def initFile : FileState := ⟨[], 0, 0⟩

/-- `SafeDictWriter`: a csv `DictWriter` over an open file handle, with the
configured `fieldnames`. -/
structure SafeDictWriter where
  fieldnames : List String
  file : FileState
deriving DecidableEq, Repr

/-- `DictWriter` row serialization: for each field name in order, the
row-dict value (`restval`, i.e. the empty cell, when absent). -/
def rowFields (fieldnames : List String) (data : List (String × String)) : List String :=
  fieldnames.map (fun k => (((data.find? (fun p => p.1 == k)).map Prod.snd).getD ""))

/-- `SafeDictWriter.writeheader` (main.py lines 188-191): serialize the
field names, append, flush, fsync. -/
def SafeDictWriter.writeheader (w : SafeDictWriter) : SafeDictWriter :=
  { w with file := ((w.file.write (csvLine w.fieldnames)).flush).fsync }

/-- `SafeDictWriter.writerow` (main.py lines 193-196): serialize the row in
field-name order, append, flush, fsync. -/
def SafeDictWriter.writerow (w : SafeDictWriter) (data : List (String × String)) : SafeDictWriter :=
  { w with file := ((w.file.write (csvLine (rowFields w.fieldnames data))).flush).fsync }

/-- N successive `writerow` calls. -/
def writeRecords (w : SafeDictWriter) (rows : List (List (String × String))) : SafeDictWriter :=
  rows.foldl SafeDictWriter.writerow w

/-- `DATA_FILE_HEADER` from main.py lines 468-483, in source order. -/
def DATA_FILE_HEADER : List String :=
  ["brightness", "count", "frequency", "period", "temperature",
   "time_utc", "time_local", "latitude", "longitude", "altitude",
   "speed", "satellites", "trigger_id", "measurement_id", "gps_time", "sqm_time"]

/-! ### Filesystem model for writer construction -/

/-- A target path: parent directory and file name. -/
structure FPath where
  dir : String
  name : String
deriving DecidableEq, Repr

/-- The Python exception relevant to `SafeDictWriter.__init__`. -/
inductive PyError
  | fileNotFound
deriving DecidableEq, Repr

/-- Directories (existing and writable) and file contents. -/
structure FS where
  dirExists : String → Bool
  files : FPath → Option (List String)

/-- `open(path, "w")`: fails with `FileNotFoundError` when the parent
directory does not exist (never auto-created); otherwise creates or
truncates the file and hands back a fresh handle. -/
def openW (fs : FS) (p : FPath) : FS × Except PyError FileState :=
  if fs.dirExists p.dir then
    ({ fs with files := fun q => if q = p then some [] else fs.files q }, Except.ok initFile)
  else
    (fs, Except.error PyError.fileNotFound)

/-- `SafeDictWriter.__init__` (main.py lines 179-186): open the data file
in "w" mode; on `FileNotFoundError` log critical and re-raise. -/
def SafeDictWriter.init (fs : FS) (p : FPath) (fieldnames : List String) :
    FS × Except PyError SafeDictWriter :=
  match openW fs p with
  | (fs2, Except.ok f) => (fs2, Except.ok ⟨fieldnames, f⟩)
  | (fs2, Except.error e) => (fs2, Except.error e)

/-- Concrete filesystem for the C9 witness: only the "data" directory exists. -/
def fsC9 : FS := ⟨fun d => d == "data", fun _ => none⟩

/-- Concrete filesystem for the C10 witness: "data/old.csv" already holds a
record from a previous run. -/
def fsC10 : FS :=
  ⟨fun d => d == "data", fun q => if q = ⟨"data", "old.csv"⟩ then some ["1,2"] else none⟩

/-! ### GPS sentence correlation (`get_gps_data`) -/

/-- A calendar date, as carried by an RMC `datestamp`. -/
structure Date where
  year : Nat
  month : Nat
  day : Nat
deriving DecidableEq, Repr

/-- A time of day, as carried by a GGA `timestamp`. -/
structure TimeOfDay where
  hour : Nat
  minute : Nat
  second : Nat
deriving DecidableEq, Repr

/-- `datetime.combine(date, time)` pairs a date with a time of day. -/
structure DateTime where
  date : Date
  time : TimeOfDay
deriving DecidableEq, Repr

/-- `strftime("%Y-%m-%dT%H:%M:%S")`. -/
def fmtDateTime (dt : DateTime) : String :=
  zfill (toString dt.date.year) 4 ++ "-" ++ zfill (toString dt.date.month) 2 ++ "-"
    ++ zfill (toString dt.date.day) 2 ++ "T" ++ zfill (toString dt.time.hour) 2 ++ ":"
    ++ zfill (toString dt.time.minute) 2 ++ ":" ++ zfill (toString dt.time.second) 2

/-- The fields `get_gps_data` consumes from a successfully parsed
GGA-type (positioning) sentence. -/
structure GgaMsg where
  latitude : String
  longitude : String
  altitude : String
  num_sats : String
  timestamp : TimeOfDay
deriving DecidableEq, Repr

/-- The fields `get_gps_data` consumes from a successfully parsed
RMC-type (navigation) sentence. -/
structure RmcMsg where
  datestamp : Date
  spd_over_grnd : String
deriving DecidableEq, Repr

/-- One decoded line from the GPS channel as `get_gps_data` classifies it:
a GGA/GNGGA-prefixed line (with `none` standing for a `ParseError`), an
RMC/GNRMC-prefixed line (likewise), or any other line. -/
inductive GpsLine
  | gga (msg : Option GgaMsg)
  | rmc (msg : Option RmcMsg)
  | other
deriving DecidableEq, Repr

/-- The local variables of the `get_gps_data` read loop. -/
structure GpsLoopState where
  date_utc : Option Date
  time_utc : Option TimeOfDay
  lat : Option String
  lon : Option String
  alt : Option String
  speed : Option String
  num_sat : Option String
  got_gga : Bool
  got_rmc : Bool
deriving DecidableEq, Repr

/-- The `GPSReport` frozen dataclass. -/
structure GPSReport where
  time_utc : String
  time_local : String
  latitude : String
  longitude : String
  altitude : String
  speed : String
  satellites : String
deriving DecidableEq, Repr

/-- The report built at main.py lines 324-334 once both sentences are in:
the navigation date is combined with the positioning time-of-day into one
UTC instant, which `astimezone` (abstracted as `astz`) converts to the
configured zone. -/
def mkReport (astz : String → DateTime → DateTime) (local_tz : String)
    (st : GpsLoopState) : GPSReport :=
  let dt_utc : DateTime := ⟨st.date_utc.getD ⟨0, 0, 0⟩, st.time_utc.getD ⟨0, 0, 0⟩⟩
  { time_utc := fmtDateTime dt_utc
  , time_local := fmtDateTime (astz local_tz dt_utc)
  , latitude := st.lat.getD ""
  , longitude := st.lon.getD ""
  , altitude := st.alt.getD ""
  , speed := st.speed.getD ""
  , satellites := st.num_sat.getD "" }

/-- The `while True` read loop of `get_gps_data` (main.py lines 291-334)
over a list of already-decoded lines. A `ParseError` line is skipped with
`continue` (no pair check); other lines update the state and then the
`got_gga and got_rmc` check runs. Exhausting the list means the real loop
would still be blocking: `none`. -/
def get_gps_data_loop (astz : String → DateTime → DateTime) (local_tz : String) :
    GpsLoopState → List GpsLine → Option GPSReport
  | _, [] => none
  | st, GpsLine.gga none :: rest => get_gps_data_loop astz local_tz st rest
  | st, GpsLine.rmc none :: rest => get_gps_data_loop astz local_tz st rest
  | st, GpsLine.gga (some m) :: rest =>
      let st' := { st with lat := some m.latitude, lon := some m.longitude,
                           alt := some m.altitude, num_sat := some m.num_sats,
                           time_utc := some m.timestamp, got_gga := true }
      if st'.got_gga && st'.got_rmc then some (mkReport astz local_tz st')
      else get_gps_data_loop astz local_tz st' rest
  | st, GpsLine.rmc (some m) :: rest =>
      let st' := { st with date_utc := some m.datestamp, speed := some m.spd_over_grnd,
                           got_rmc := true }
      if st'.got_gga && st'.got_rmc then some (mkReport astz local_tz st')
      else get_gps_data_loop astz local_tz st' rest
  | st, GpsLine.other :: rest =>
      if st.got_gga && st.got_rmc then some (mkReport astz local_tz st)
      else get_gps_data_loop astz local_tz st rest

/-- `get_gps_data` (a.k.a. `read_report`): run the loop from the all-unset
initial state. -/
def get_gps_data (astz : String → DateTime → DateTime) (local_tz : String)
    (lines : List GpsLine) : Option GPSReport :=
  get_gps_data_loop astz local_tz ⟨none, none, none, none, none, none, none, false, false⟩ lines

/-- Lines that `get_gps_data` discards without effect: malformed
recognized sentences and unrecognized sentence types. -/
def skippable : GpsLine → Bool
  | GpsLine.gga none => true
  | GpsLine.rmc none => true
  | GpsLine.other => true
  | _ => false

/-! ### GPS fix wait (`wait_for_gps_fix`) -/

/-- One decoded line from the GPS channel as `wait_for_gps_fix` classifies
it: a GGA-type line parsed into its quality indicator and satellite count,
a GGA-type line raising `ParseError`, or any other line. -/
inductive FixLine
  | gga (gps_qual : Nat) (num_sats : Nat)
  | badGga
  | other
deriving DecidableEq, Repr

/-- A line giving a validated fix: a parsed positioning sentence whose
fix-quality indicator is at least 1. -/
def goodFix : FixLine → Bool
  | FixLine.gga q _ => decide (1 ≤ q)
  | _ => false

/-- The `while time() - start_time < timeout` loop of `wait_for_gps_fix`
(main.py lines 241-266). `lines k` is the line read on iteration `k`,
`elapsed k` the elapsed wall time when iteration `k` checks the deadline.
Returns `some (ok)` on a validated fix, `some (error)` on timeout,
`none` when the modelling fuel is exhausted first. -/
def wfLoop (lines : Nat → FixLine) (elapsed : Nat → Nat) (timeout : Nat) :
    Nat → Nat → Option (Except String Unit)
  | 0, _ => none
  | fuel + 1, k =>
      if elapsed k < timeout then
        match lines k with
        | FixLine.gga q _ =>
            if 1 ≤ q then some (Except.ok ())
            else wfLoop lines elapsed timeout fuel (k + 1)
        | FixLine.badGga => wfLoop lines elapsed timeout fuel (k + 1)
        | FixLine.other => wfLoop lines elapsed timeout fuel (k + 1)
      else some (Except.error "GPS fix not acquired")

/-- `wait_for_gps_fix`: run the deadline loop from iteration 0 with enough
fuel for `fuel + 1` reads. -/
def wait_for_gps_fix (lines : Nat → FixLine) (elapsed : Nat → Nat)
    (timeout fuel : Nat) : Option (Except String Unit) :=
  wfLoop lines elapsed timeout (fuel + 1) 0

/-! ### Worker loop model (`logging_worker`)

The shared `Settings` store is a time-indexed valuation `env : Nat → SettingsV`:
every atomic action of the worker (each locked settings-field read, each
trigger-event operation, each acquisition step) occupies one tick, and a
settings read at tick `t` observes `env t`; a concurrent mutation is a
change of `env` between ticks. `pulse t` says whether at least one trigger
pulse (button press or `t` command) arrives during tick `t`; the Event
flag accumulates pulses at every tick, `clear` discards them, `wait`
blocks until the flag is set, `is_set` reads it — matching the
edge-triggered single-slot `threading.Event`. -/

/-- The `TriggerBehavior` enum (main.py lines 24-28). -/
inductive TriggerBehavior
  | SINGLE
  | TOGGLE_CONTINUOUS
deriving DecidableEq, Repr

/-- One generation of the settings fields the worker reads. -/
structure SettingsV where
  measurements_per_trigger : Nat
  measurement_interval : Nat
  extra_measurement : Bool
  local_timezone : String
  trigger_behavior : TriggerBehavior
deriving DecidableEq, Repr

/-- Observable events emitted by the worker, in program order. -/
inductive WEv
  | header
  | extraQuery
  | record (trigger_id : Nat) (measurement_id : Nat) (tz : String)
  | sleepFor (interval : Nat)
  | activeOn
  | activeOff
deriving DecidableEq, Repr

/-- Worker-visible state: the global tick and the trigger Event flag. -/
structure WSt where
  t : Nat
  flag : Bool
deriving DecidableEq, Repr

/-- One atomic tick: absorb any pulse arriving during it. -/
def wstep (pulse : Nat → Bool) (s : WSt) : WSt := ⟨s.t + 1, s.flag || pulse s.t⟩

/-- `logging_event.clear()`: one tick, then the flag is down (a pulse
racing the clear is lost, as with the real Event). -/
def clearEv (s : WSt) : WSt := ⟨s.t + 1, false⟩

/-- Whether some pulse arrives during ticks `[a, a + len)`. -/
def anyPulse (pulse : Nat → Bool) : Nat → Nat → Bool
  | _, 0 => false
  | a, len + 1 => pulse a || anyPulse pulse (a + 1) len

/-- The `for _ in range(measurements_per_trigger)` loop (main.py lines
444-447). Each iteration: read `local_timezone` (inside `log_measurement`'s
`get_gps_data` call), acquire GPS + SQM and write the record, read
`measurement_interval`, sleep it. `measurement_id` increments per record. -/
def measFor (env : Nat → SettingsV) (pulse : Nat → Bool) (tid : Nat) :
    Nat → Nat → WSt → List WEv × Nat × WSt
  | 0, mid, s => ([], mid, s)
  | c + 1, mid, s =>
      let tz := (env s.t).local_timezone
      let s1 := wstep pulse s
      let s2 := wstep pulse s1
      let iv := (env s2.t).measurement_interval
      let s3 := wstep pulse s2
      let s4 := wstep pulse s3
      let rest := measFor env pulse tid c (mid + 1) s4
      (WEv.record tid mid tz :: WEv.sleepFor iv :: rest.1, rest.2)

/-- The expected event list of the measurement loop, written directly as a
function of the read schedule: measurement `i` reads `local_timezone` at
tick `t + 4*i` and `measurement_interval` at tick `t + 4*i + 2`. -/
def measEvs (env : Nat → SettingsV) (tid : Nat) : Nat → Nat → Nat → List WEv
  | 0, _, _ => []
  | c + 1, mid, t =>
      WEv.record tid mid ((env t).local_timezone)
        :: WEv.sleepFor ((env (t + 2)).measurement_interval)
        :: measEvs env tid c (mid + 1) (t + 4)

/-- One pass of the inner `while True` body up to the mode check (main.py
lines 438-449): read `extra_measurement` (one warm-up query if set), read
`measurements_per_trigger` once for the `range`, run the measurement loop.
Returns the events, the new `measurement_id`, and the state. -/
def cycleBody (env : Nat → SettingsV) (pulse : Nat → Bool) (tid mid : Nat) (s : WSt) :
    List WEv × Nat × WSt :=
  let ex := (env s.t).extra_measurement
  let s1 := wstep pulse s
  let pre : List WEv := if ex then [WEv.extraQuery] else []
  let s2 := if ex then wstep pulse s1 else s1
  let n := (env s2.t).measurements_per_trigger
  let s3 := wstep pulse s2
  let m := measFor env pulse tid n mid s3
  (pre ++ m.1, m.2)

/-- The inner `while True` loop (main.py lines 438-453): after each cycle
`trigger_id` is incremented, then the break condition
`trigger_behavior == SINGLE or (trigger_behavior == TOGGLE_CONTINUOUS and
logging_event.is_set())` is evaluated left to right with short-circuiting.
`none` means the fuel ran out while the loop was still running. -/
def innerLoop (env : Nat → SettingsV) (pulse : Nat → Bool) :
    Nat → Nat → Nat → WSt → Option (List WEv × Nat × Nat × WSt)
  | 0, _, _, _ => none
  | fuel + 1, tid, mid, s =>
      let cb := cycleBody env pulse tid mid s
      let tb1 := (env cb.2.2.t).trigger_behavior
      let s5 := wstep pulse cb.2.2
      if tb1 = TriggerBehavior.SINGLE then some (cb.1, tid + 1, cb.2.1, s5)
      else
        let tb2 := (env s5.t).trigger_behavior
        let s6 := wstep pulse s5
        if tb2 = TriggerBehavior.TOGGLE_CONTINUOUS then
          let s7 := wstep pulse s6
          if s7.flag then some (cb.1, tid + 1, cb.2.1, s7)
          else (innerLoop env pulse fuel (tid + 1) cb.2.1 s7).map
                 (fun x => (cb.1 ++ x.1, x.2))
        else (innerLoop env pulse fuel (tid + 1) cb.2.1 s6).map
               (fun x => (cb.1 ++ x.1, x.2))

/-- `logging_event.wait()`: poll the flag, absorbing pulses, until set. -/
def waitLoop (pulse : Nat → Bool) : Nat → WSt → Option WSt
  | 0, _ => none
  | fuel + 1, s =>
      let s1 := wstep pulse s
      if s1.flag then some s1 else waitLoop pulse fuel s1

/-- One pass of the outer `while True` loop (main.py lines 432-456): wait
for the trigger, clear it, set `logging_active`, reset `measurement_id`
to zero, run the inner loop, clear `logging_active`, clear the event. -/
def outerOnce (env : Nat → SettingsV) (pulse : Nat → Bool) (waitFuel innerFuel tid : Nat)
    (s : WSt) : Option (List WEv × Nat × WSt) :=
  match waitLoop pulse waitFuel s with
  | none => none
  | some s1 =>
      let s2 := clearEv s1
      let s3 := wstep pulse s2
      match innerLoop env pulse innerFuel tid 0 s3 with
      | none => none
      | some (evs, tid2, _, s4) =>
          let s5 := wstep pulse s4
          some (WEv.activeOn :: (evs ++ [WEv.activeOff]), tid2, clearEv s5)

/-- The outer loop, bounded to `runs` trigger activations. -/
def workerLoop (env : Nat → SettingsV) (pulse : Nat → Bool) (waitFuel innerFuel : Nat) :
    Nat → Nat → WSt → List WEv
  | 0, _, _ => []
  | runs + 1, tid, s =>
      match outerOnce env pulse waitFuel innerFuel tid s with
      | none => []
      | some (evs, tid2, s2) => evs ++ workerLoop env pulse waitFuel innerFuel runs tid2 s2

/-- `logging_worker` (main.py lines 426-456): clear the event, write the
header, start with `trigger_id = 0`, then run the outer loop. -/
def logging_worker (env : Nat → SettingsV) (pulse : Nat → Bool)
    (waitFuel innerFuel runs : Nat) : List WEv :=
  let s1 := clearEv ⟨0, false⟩
  let s2 := wstep pulse s1
  WEv.header :: workerLoop env pulse waitFuel innerFuel runs 0 s2

/-- The `(trigger_id, measurement_id)` pairs attached to the written
records, in write order. -/
def recordsOf (evs : List WEv) : List (Nat × Nat) :=
  evs.filterMap (fun e => match e with
    | WEv.record a b _ => some (a, b)
    | _ => none)

/-- Relation between consecutive written records: either the same trigger
cycle continues with the sequence id incremented, or a later cycle starts
with a strictly larger trigger id and sequence id either reset to zero
(new trigger event) or continued (next cycle of the same continuous run). -/
def recStep (a b : Nat × Nat) : Prop :=
  (a.1 = b.1 ∧ b.2 = a.2 + 1) ∨ (a.1 < b.1 ∧ (b.2 = 0 ∨ b.2 = a.2 + 1))

instance : DecidableRel recStep := fun a b => by
  unfold recStep
  infer_instance

def perCycleResetAux : Nat × Nat → List (Nat × Nat) → Bool
  | _, [] => true
  | prev, r :: rest => ((prev.1 == r.1) || (r.2 == 0)) && perCycleResetAux r rest

/-- The claimed per-cycle reset property: the first record overall, and
every record opening a new trigger cycle (trigger id different from its
predecessor's), carries measurement id zero. -/
def perCycleReset : List (Nat × Nat) → Bool
  | [] => true
  | r :: rest => (r.2 == 0) && perCycleResetAux r rest

/-- Number of ticks one inner-loop pass takes in `TOGGLE_CONTINUOUS` mode
under settings `sv`: the `extra_measurement` read (plus the warm-up query),
the `measurements_per_trigger` read, four per measurement, the two
`trigger_behavior` reads and the `is_set` check. -/
def cycleLen (sv : SettingsV) : Nat :=
  4 * sv.measurements_per_trigger + 5 + (if sv.extra_measurement then 1 else 0)

/-- Ticks consumed by `cycleBody` under constant settings `sv`. -/
def cbLen (sv : SettingsV) : Nat :=
  4 * sv.measurements_per_trigger + 2 + (if sv.extra_measurement then 1 else 0)

/-! ### Row assembly (`log_measurement`) -/

/-- The row dict built by `log_measurement` (main.py lines 389-404), in
source insertion order. `pyRound k` stands for `str(round(float(x), k))`;
the trigger and sequence ids are zero-padded with `zfill`. -/
def log_measurement_data (pyRound : String → Nat → String) (sqm : SQMReading)
    (gps : GPSReport) (trigger_id measurement_id : Nat)
    (gps_time sqm_time : String) : List (String × String) :=
  [("brightness", sqm.brightness),
   ("count", sqm.count),
   ("frequency", sqm.frequency),
   ("period", sqm.period),
   ("temperature", sqm.temperature),
   ("time_utc", gps.time_utc),
   ("time_local", gps.time_local),
   ("latitude", pyRound gps.latitude 5),
   ("longitude", pyRound gps.longitude 5),
   ("altitude", gps.altitude),
   ("speed", gps.speed),
   ("satellites", gps.satellites),
   ("trigger_id", zfill (toString trigger_id) 5),
   ("measurement_id", zfill (toString measurement_id) 3),
   ("gps_time", pyRound gps_time 4),
   ("sqm_time", pyRound sqm_time 4)]

/-- The column order the specification asserts (trigger id first), written
out to compare with the source's `DATA_FILE_HEADER`. -/
def claimedHeaderOrder : List String :=
  ["trigger_id", "measurement_id", "time_utc", "time_local", "latitude", "longitude",
   "altitude", "speed", "satellites", "brightness", "count", "frequency", "period",
   "temperature", "gps_time", "sqm_time"]

/-! ### Concrete instances for the C1, C3 and C6 claims -/

def envC1 : Nat → SettingsV :=
  fun _ => ⟨1, 0, false, "UTC", TriggerBehavior.TOGGLE_CONTINUOUS⟩

def pulseC1 : Nat → Bool := fun t => t == 2 || t == 22

def svC3 : SettingsV := ⟨1, 0, false, "UTC", TriggerBehavior.TOGGLE_CONTINUOUS⟩

def envC3 : Nat → SettingsV := fun _ => svC3

def pulseC3 : Nat → Bool := fun t => t == 12

def envC3s : Nat → SettingsV := fun _ => ⟨2, 0, false, "UTC", TriggerBehavior.SINGLE⟩

def pulseC3s : Nat → Bool := fun t => t == 2

def svC6A : SettingsV := ⟨2, 5, false, "UTC", TriggerBehavior.SINGLE⟩

def svC6B : SettingsV := ⟨2, 7, false, "UTC", TriggerBehavior.SINGLE⟩

def envC6A : Nat → SettingsV := fun _ => svC6A

def envC6B : Nat → SettingsV := fun t => if t ≤ 7 then svC6A else svC6B

/-! ### Helper lemmas for the writer -/

theorem length_mk (l : List Char) : (String.mk l).length = l.length := rfl

theorem toList_length (s : String) : s.toList.length = s.length := rfl

theorem writerow_lines (w : SafeDictWriter) (row : List (String × String)) :
    (w.writerow row).file.lines = w.file.lines ++ [csvLine (rowFields w.fieldnames row)] := rfl

theorem writerow_synced (w : SafeDictWriter) (row : List (String × String)) :
    (w.writerow row).file.synced = (w.writerow row).file.lines.length := rfl

theorem writeRecords_lines (rows : List (List (String × String))) :
    ∀ (w : SafeDictWriter),
      (writeRecords w rows).file.lines
        = w.file.lines ++ rows.map (fun r => csvLine (rowFields w.fieldnames r))
      ∧ (writeRecords w rows).fieldnames = w.fieldnames
      ∧ ((writeRecords w rows).file.synced = (writeRecords w rows).file.lines.length
          ∨ rows = []) := by
  induction rows with
  | nil => intro w; simp [writeRecords]
  | cons r rs ih =>
      intro w
      have h := ih (w.writerow r)
      refine ⟨?_, ?_, ?_⟩
      · simpa [writeRecords, SafeDictWriter.writerow, FileState.write, FileState.flush,
          FileState.fsync, List.foldl_cons] using h.1
      · simpa [writeRecords, List.foldl_cons, SafeDictWriter.writerow] using h.2.1
      · rcases h.2.2 with h' | h'
        · exact Or.inl (by simpa [writeRecords, List.foldl_cons] using h')
        · subst h'
          exact Or.inl (by simp [writeRecords, List.foldl_cons, writerow_synced])

/-! ### Claim theorems: C7, C2, C9, C10 -/

/-- Claim C7: for every response string, `get_sqm_data` returns the five
fields sliced at character offsets [2:8], [10:20], [23:33], [35:46],
[49:54]; each field's character content is exactly the corresponding
take/drop of the response, and its length is clipped (`min`) by the
response length, so a short response yields truncated, possibly empty,
fields rather than an error. -/
theorem sqm_response_slicing : ∀ (response : String),
    get_sqm_data response =
      { brightness := pySlice response 2 8
      , frequency := pySlice response 10 20
      , count := pySlice response 23 33
      , period := pySlice response 35 46
      , temperature := pySlice response 49 54 }
    ∧ (get_sqm_data response).brightness.toList = (response.toList.drop 2).take 6
    ∧ (get_sqm_data response).frequency.toList = (response.toList.drop 10).take 10
    ∧ (get_sqm_data response).count.toList = (response.toList.drop 23).take 10
    ∧ (get_sqm_data response).period.toList = (response.toList.drop 35).take 11
    ∧ (get_sqm_data response).temperature.toList = (response.toList.drop 49).take 5
    ∧ (get_sqm_data response).brightness.length = min 6 (response.length - 2)
    ∧ (get_sqm_data response).frequency.length = min 10 (response.length - 10)
    ∧ (get_sqm_data response).count.length = min 10 (response.length - 23)
    ∧ (get_sqm_data response).period.length = min 11 (response.length - 35)
    ∧ (get_sqm_data response).temperature.length = min 5 (response.length - 49) := by
  intro response
  refine ⟨rfl, rfl, rfl, rfl, rfl, rfl, ?_, ?_, ?_, ?_, ?_⟩ <;>
    simp [get_sqm_data, pySlice, length_mk, List.length_take, List.length_drop, toList_length]

/-- Claim C2: every `writerow` appends exactly one serialized line (in the
fixed column order given by the configured field names), and on return the
whole file content is flushed and fsynced (`synced` covers every line, so
the durable content equals the full content); likewise `writeheader`; and
`writeheader` followed by N `writerow` calls leaves exactly N+1 durable
lines: the header followed by the N records, each serialized in the
declared `DATA_FILE_HEADER` column order. -/
theorem write_durability :
    (∀ (w : SafeDictWriter) (row : List (String × String)),
        (w.writerow row).file.lines = w.file.lines ++ [csvLine (rowFields w.fieldnames row)]
      ∧ (w.writerow row).file.synced = (w.writerow row).file.lines.length
      ∧ (w.writerow row).file.durable = (w.writerow row).file.lines)
  ∧ (∀ (w : SafeDictWriter),
        w.writeheader.file.lines = w.file.lines ++ [csvLine w.fieldnames]
      ∧ w.writeheader.file.synced = w.writeheader.file.lines.length
      ∧ w.writeheader.file.durable = w.writeheader.file.lines)
  ∧ (∀ (rows : List (List (String × String))),
        (writeRecords (SafeDictWriter.mk DATA_FILE_HEADER initFile).writeheader rows).file.durable
          = csvLine DATA_FILE_HEADER :: rows.map (fun r => csvLine (rowFields DATA_FILE_HEADER r))
      ∧ (writeRecords (SafeDictWriter.mk DATA_FILE_HEADER initFile).writeheader
            rows).file.durable.length = rows.length + 1) := by
  refine ⟨?_, ?_, ?_⟩
  · intro w row
    refine ⟨rfl, rfl, ?_⟩
    simp [FileState.durable, writerow_synced]
  · intro w
    refine ⟨rfl, rfl, ?_⟩
    simp [FileState.durable, SafeDictWriter.writeheader, FileState.write, FileState.flush,
      FileState.fsync]
  · intro rows
    have h := writeRecords_lines rows (SafeDictWriter.mk DATA_FILE_HEADER initFile).writeheader
    have hsync : (writeRecords (SafeDictWriter.mk DATA_FILE_HEADER initFile).writeheader
        rows).file.synced
        = (writeRecords (SafeDictWriter.mk DATA_FILE_HEADER
            initFile).writeheader rows).file.lines.length := by
      rcases h.2.2 with h' | h'
      · exact h'
      · subst h'; rfl
    have hlines : (writeRecords (SafeDictWriter.mk DATA_FILE_HEADER initFile).writeheader
        rows).file.lines
        = csvLine DATA_FILE_HEADER :: rows.map (fun r => csvLine (rowFields DATA_FILE_HEADER r)) := by
      simpa [SafeDictWriter.writeheader, FileState.write, FileState.flush, FileState.fsync,
        initFile] using h.1
    constructor
    · simp [FileState.durable, hsync, hlines]
    · simp [FileState.durable, hsync, hlines]

/-- Claim C9: constructing the writer on a path whose parent directory
does not exist fails with `FileNotFoundError` and leaves the filesystem
untouched (no output file produced, no directory auto-created); when the
target directory exists and is writable, construction succeeds and the
new handle starts on an empty file. -/
theorem writer_init_missing_dir : ∀ (fs : FS) (p : FPath) (fns : List String),
    (fs.dirExists p.dir = false →
        (SafeDictWriter.init fs p fns).2 = Except.error PyError.fileNotFound
      ∧ (SafeDictWriter.init fs p fns).1 = fs)
  ∧ (fs.dirExists p.dir = true →
        (SafeDictWriter.init fs p fns).2 = Except.ok ⟨fns, initFile⟩
      ∧ (SafeDictWriter.init fs p fns).1.files p = some []) := by
  intro fs p fns
  constructor
  · intro h
    constructor <;> simp [SafeDictWriter.init, openW, h]
  · intro h
    constructor <;> simp [SafeDictWriter.init, openW, h]

theorem writer_init_missing_dir_witness :
    (SafeDictWriter.init fsC9 ⟨"missing", "out.csv"⟩ DATA_FILE_HEADER).2
      = Except.error PyError.fileNotFound
  ∧ (SafeDictWriter.init fsC9 ⟨"data", "out.csv"⟩ DATA_FILE_HEADER).2
      = Except.ok ⟨DATA_FILE_HEADER, initFile⟩ :=
  ⟨((writer_init_missing_dir fsC9 ⟨"missing", "out.csv"⟩ DATA_FILE_HEADER).1 rfl).1,
   ((writer_init_missing_dir fsC9 ⟨"data", "out.csv"⟩ DATA_FILE_HEADER).2 rfl).1⟩

/-- Claim C10: constructing the writer on a path where a file already
exists truncates it: mode "w" discards any previously persisted records
at construction time, leaving the file empty before any header is written. -/
theorem writer_init_truncates : ∀ (fs : FS) (p : FPath) (fns : List String) (c : List String),
    fs.dirExists p.dir = true → fs.files p = some c →
      (SafeDictWriter.init fs p fns).1.files p = some []
    ∧ (SafeDictWriter.init fs p fns).2 = Except.ok ⟨fns, initFile⟩ := by
  intro fs p fns c hdir _
  constructor <;> simp [SafeDictWriter.init, openW, hdir]

theorem writer_init_truncates_witness :
    (SafeDictWriter.init fsC10 ⟨"data", "old.csv"⟩ DATA_FILE_HEADER).1.files
        ⟨"data", "old.csv"⟩ = some [] :=
  (writer_init_truncates fsC10 ⟨"data", "old.csv"⟩ DATA_FILE_HEADER ["1,2"] rfl (by decide)).1

theorem loop_skip (astz : String → DateTime → DateTime) (tz : String)
    (st : GpsLoopState) (l : GpsLine) (ls : List GpsLine)
    (hl : skippable l = true) (hst : st.got_gga = false ∨ st.got_rmc = false) :
    get_gps_data_loop astz tz st (l :: ls) = get_gps_data_loop astz tz st ls := by
  cases l with
  | gga m => cases m with
    | none => rfl
    | some m => simp [skippable] at hl
  | rmc m => cases m with
    | none => rfl
    | some m => simp [skippable] at hl
  | other =>
      have : (st.got_gga && st.got_rmc) = false := by
        rcases hst with h | h <;> simp [h]
      simp [get_gps_data_loop, this]

theorem loop_skip_all (astz : String → DateTime → DateTime) (tz : String)
    (st : GpsLoopState) (noise ls : List GpsLine)
    (hn : ∀ l ∈ noise, skippable l = true)
    (hst : st.got_gga = false ∨ st.got_rmc = false) :
    get_gps_data_loop astz tz st (noise ++ ls) = get_gps_data_loop astz tz st ls := by
  induction noise with
  | nil => rfl
  | cons l noise ih =>
      rw [List.cons_append, loop_skip astz tz st l (noise ++ ls) (hn l (by simp)) hst,
        ih (fun x hx => hn x (by simp [hx]))]

theorem wfLoop_ok (lines : Nat → FixLine) (elapsed : Nat → Nat) (timeout : Nat)
    (hm : ∀ i j, i ≤ j → elapsed i ≤ elapsed j) :
    ∀ fuel k j, k ≤ j → j < k + fuel → elapsed j < timeout → goodFix (lines j) = true →
      wfLoop lines elapsed timeout fuel k = some (Except.ok ()) := by
  intro fuel
  induction fuel with
  | zero => intro k j h1 h2; omega
  | succ f ih =>
      intro k j h1 h2 h3 h4
      have hk : elapsed k < timeout := lt_of_le_of_lt (hm k j h1) h3
      by_cases hg : goodFix (lines k) = true
      · cases hline : lines k with
        | gga q ns =>
            have hq : 1 ≤ q := by
              have := hg; rw [hline] at this; simpa [goodFix] using this
            simp [wfLoop, hk, hline, hq]
        | badGga => rw [hline] at hg; simp [goodFix] at hg
        | other => rw [hline] at hg; simp [goodFix] at hg
      · have hkj : k ≠ j := fun h => hg (h ▸ h4)
        have hrec := ih (k + 1) j (by omega) (by omega) h3 h4
        cases hline : lines k with
        | gga q ns =>
            have hq : ¬ 1 ≤ q := by
              intro hq1
              exact hg (by rw [hline]; simpa [goodFix] using hq1)
            simp [wfLoop, hk, hline, hq, hrec]
        | badGga => simp [wfLoop, hk, hline, hrec]
        | other => simp [wfLoop, hk, hline, hrec]

theorem wfLoop_succ (lines : Nat → FixLine) (elapsed : Nat → Nat) (timeout fuel k : Nat) :
    wfLoop lines elapsed timeout (fuel + 1) k =
      if elapsed k < timeout then
        match lines k with
        | FixLine.gga q _ =>
            if 1 ≤ q then some (Except.ok ())
            else wfLoop lines elapsed timeout fuel (k + 1)
        | FixLine.badGga => wfLoop lines elapsed timeout fuel (k + 1)
        | FixLine.other => wfLoop lines elapsed timeout fuel (k + 1)
      else some (Except.error "GPS fix not acquired") := rfl

theorem wfLoop_err (lines : Nat → FixLine) (elapsed : Nat → Nat) (timeout : Nat) :
    ∀ fuel k, timeout ≤ elapsed (k + fuel) →
      (∀ j, k ≤ j → elapsed j < timeout → goodFix (lines j) = false) →
      wfLoop lines elapsed timeout (fuel + 1) k = some (Except.error "GPS fix not acquired") := by
  intro fuel
  induction fuel with
  | zero =>
      intro k hT _
      rw [Nat.add_zero] at hT
      have hnk : ¬ elapsed k < timeout := by omega
      rw [wfLoop_succ, if_neg hnk]
  | succ f ih =>
      intro k hT hbad
      have hT' : timeout ≤ elapsed (k + 1 + f) := by
        have : k + 1 + f = k + (f + 1) := by omega
        rw [this]; exact hT
      by_cases hk : elapsed k < timeout
      · have hrec := ih (k + 1) hT' (fun j hj => hbad j (by omega))
        rw [wfLoop_succ, if_pos hk]
        cases hline : lines k with
        | gga q ns =>
            have hq : ¬ 1 ≤ q := by
              intro hq1
              have := hbad k (le_refl k) hk
              rw [hline] at this; simp [goodFix] at this; omega
            simp only [if_neg hq]
            exact hrec
        | badGga => exact hrec
        | other => exact hrec
      · rw [wfLoop_succ, if_neg hk]

/-! ### Claim theorems: C4, C5 -/

/-- Claim C4: for any stream holding one valid positioning (GGA-type)
sentence and one valid navigation (RMC-type) sentence, in either order and
with any malformed or unrecognized lines interleaved before the pair
completes, `get_gps_data` returns the report whose UTC timestamp is the
navigation date combined with the positioning time-of-day and whose local
timestamp is that instant converted by the timezone conversion `astz` —
the same report regardless of arrival order, with the bad lines skipped
rather than aborting. -/
theorem gps_pair_correlation (astz : String → DateTime → DateTime) (tz : String)
    (g : GgaMsg) (r : RmcMsg) (n1 n2 m1 m2 : List GpsLine)
    (hn1 : ∀ l ∈ n1, skippable l = true) (hn2 : ∀ l ∈ n2, skippable l = true)
    (hm1 : ∀ l ∈ m1, skippable l = true) (hm2 : ∀ l ∈ m2, skippable l = true) :
    get_gps_data astz tz (n1 ++ (GpsLine.gga (some g) :: (n2 ++ [GpsLine.rmc (some r)])))
      = some { time_utc := fmtDateTime ⟨r.datestamp, g.timestamp⟩
             , time_local := fmtDateTime (astz tz ⟨r.datestamp, g.timestamp⟩)
             , latitude := g.latitude
             , longitude := g.longitude
             , altitude := g.altitude
             , speed := r.spd_over_grnd
             , satellites := g.num_sats }
    ∧ get_gps_data astz tz (m1 ++ (GpsLine.rmc (some r) :: (m2 ++ [GpsLine.gga (some g)])))
      = some { time_utc := fmtDateTime ⟨r.datestamp, g.timestamp⟩
             , time_local := fmtDateTime (astz tz ⟨r.datestamp, g.timestamp⟩)
             , latitude := g.latitude
             , longitude := g.longitude
             , altitude := g.altitude
             , speed := r.spd_over_grnd
             , satellites := g.num_sats } := by
  constructor
  · have h1 := loop_skip_all astz tz ⟨none, none, none, none, none, none, none, false, false⟩
      n1 (GpsLine.gga (some g) :: (n2 ++ [GpsLine.rmc (some r)])) hn1 (Or.inl rfl)
    have h2 := loop_skip_all astz tz
      ⟨none, some g.timestamp, some g.latitude, some g.longitude, some g.altitude,
        none, some g.num_sats, true, false⟩ n2 [GpsLine.rmc (some r)] hn2 (Or.inr rfl)
    rw [get_gps_data, h1,
      show get_gps_data_loop astz tz ⟨none, none, none, none, none, none, none, false, false⟩
          (GpsLine.gga (some g) :: (n2 ++ [GpsLine.rmc (some r)]))
        = get_gps_data_loop astz tz
            ⟨none, some g.timestamp, some g.latitude, some g.longitude, some g.altitude,
              none, some g.num_sats, true, false⟩ (n2 ++ [GpsLine.rmc (some r)]) from rfl,
      h2]
    rfl
  · have h1 := loop_skip_all astz tz ⟨none, none, none, none, none, none, none, false, false⟩
      m1 (GpsLine.rmc (some r) :: (m2 ++ [GpsLine.gga (some g)])) hm1 (Or.inl rfl)
    have h2 := loop_skip_all astz tz
      ⟨some r.datestamp, none, none, none, none, some r.spd_over_grnd, none, false, true⟩
      m2 [GpsLine.gga (some g)] hm2 (Or.inl rfl)
    rw [get_gps_data, h1,
      show get_gps_data_loop astz tz ⟨none, none, none, none, none, none, none, false, false⟩
          (GpsLine.rmc (some r) :: (m2 ++ [GpsLine.gga (some g)]))
        = get_gps_data_loop astz tz
            ⟨some r.datestamp, none, none, none, none, some r.spd_over_grnd, none, false, true⟩
            (m2 ++ [GpsLine.gga (some g)]) from rfl,
      h2]
    rfl

theorem gps_pair_correlation_witness :
    get_gps_data (fun _ dt => dt) "America/Los_Angeles"
        [GpsLine.other,
         GpsLine.gga (some ⟨"47.6", "-122.3", "56.0", "08", ⟨4, 33, 21⟩⟩),
         GpsLine.rmc none,
         GpsLine.rmc (some ⟨⟨2024, 7, 1⟩, "0.1"⟩)]
      = some { time_utc := fmtDateTime ⟨⟨2024, 7, 1⟩, ⟨4, 33, 21⟩⟩
             , time_local := fmtDateTime ⟨⟨2024, 7, 1⟩, ⟨4, 33, 21⟩⟩
             , latitude := "47.6"
             , longitude := "-122.3"
             , altitude := "56.0"
             , speed := "0.1"
             , satellites := "08" } :=
  (gps_pair_correlation (fun _ dt => dt) "America/Los_Angeles"
      ⟨"47.6", "-122.3", "56.0", "08", ⟨4, 33, 21⟩⟩ ⟨⟨2024, 7, 1⟩, "0.1"⟩
      [GpsLine.other] [GpsLine.rmc none] [] []
      (by decide) (by decide) (by decide) (by decide)).1

/-- Claim C5: with a monotone clock that passes the deadline within the
modelled fuel, `wait_for_gps_fix` returns success exactly when some
iteration that starts before the timeout reads a positioning sentence
whose fix-quality indicator is at least 1 (unparseable and non-GGA lines
are skipped, never fatal), and otherwise fails with the
"GPS fix not acquired" error — it never reports success without a
validated fix. -/
theorem wait_for_fix_iff (lines : Nat → FixLine) (elapsed : Nat → Nat)
    (timeout fuel : Nat)
    (hm : ∀ i j, i ≤ j → elapsed i ≤ elapsed j)
    (hT : timeout ≤ elapsed fuel) :
    (wait_for_gps_fix lines elapsed timeout fuel = some (Except.ok ())
      ↔ ∃ j, elapsed j < timeout ∧ goodFix (lines j) = true)
  ∧ (wait_for_gps_fix lines elapsed timeout fuel
        = some (Except.error "GPS fix not acquired")
      ↔ ¬ ∃ j, elapsed j < timeout ∧ goodFix (lines j) = true) := by
  have herr : (¬ ∃ j, elapsed j < timeout ∧ goodFix (lines j) = true) →
      wait_for_gps_fix lines elapsed timeout fuel
        = some (Except.error "GPS fix not acquired") := by
    intro hno
    refine wfLoop_err lines elapsed timeout fuel 0 (by simpa using hT) ?_
    intro j _ hj
    by_contra hgood
    exact hno ⟨j, hj, by revert hgood; cases goodFix (lines j) <;> simp⟩
  have hok : (∃ j, elapsed j < timeout ∧ goodFix (lines j) = true) →
      wait_for_gps_fix lines elapsed timeout fuel = some (Except.ok ()) := by
    rintro ⟨j, hj, hgood⟩
    have hjf : j < fuel := by
      by_contra hge
      have := hm fuel j (by omega)
      omega
    exact wfLoop_ok lines elapsed timeout hm (fuel + 1) 0 j (by omega) (by omega) hj hgood
  constructor
  · constructor
    · intro hres
      by_contra hno
      have := herr hno
      rw [hres] at this
      simp at this
    · exact hok
  · constructor
    · intro hres
      intro hex
      have := hok hex
      rw [hres] at this
      simp at this
    · exact herr

theorem wait_for_fix_iff_witness :
    wait_for_gps_fix (fun _ => FixLine.other) (fun n => n) 1 1
        = some (Except.error "GPS fix not acquired")
  ∧ wait_for_gps_fix (fun _ => FixLine.gga 1 5) (fun n => n) 1 1
        = some (Except.ok ()) :=
  ⟨(wait_for_fix_iff (fun _ => FixLine.other) (fun n => n) 1 1
        (fun _ _ h => h) (le_refl 1)).2.mpr
      (by rintro ⟨j, _, hg⟩; simp [goodFix] at hg),
   (wait_for_fix_iff (fun _ => FixLine.gga 1 5) (fun n => n) 1 1
        (fun _ _ h => h) (le_refl 1)).1.mpr ⟨0, by decide, by decide⟩⟩

/-! ### Worker loop lemmas -/

theorem anyPulse_add (pulse : Nat → Bool) :
    ∀ m k a, anyPulse pulse a (m + k) = (anyPulse pulse a m || anyPulse pulse (a + m) k) := by
  intro m
  induction m with
  | zero => intro k a; simp [anyPulse]
  | succ m ih =>
      intro k a
      have h1 : m + 1 + k = (m + k) + 1 := by omega
      have h2 : a + (m + 1) = a + 1 + m := by omega
      rw [h1, h2]
      show (pulse a || anyPulse pulse (a + 1) (m + k))
          = ((pulse a || anyPulse pulse (a + 1) m) || anyPulse pulse (a + 1 + m) k)
      rw [ih k (a + 1), Bool.or_assoc]

theorem measFor_evs (env : Nat → SettingsV) (pulse : Nat → Bool) (tid : Nat) :
    ∀ c mid s, (measFor env pulse tid c mid s).1 = measEvs env tid c mid s.t := by
  intro c
  induction c with
  | zero => intro mid s; rfl
  | succ c ih =>
      intro mid s
      show WEv.record tid mid _ :: WEv.sleepFor _
          :: (measFor env pulse tid c (mid + 1)
                (wstep pulse (wstep pulse (wstep pulse (wstep pulse s))))).1
        = _
      rw [ih (mid + 1) (wstep pulse (wstep pulse (wstep pulse (wstep pulse s))))]
      rfl

theorem measFor_mid (env : Nat → SettingsV) (pulse : Nat → Bool) (tid : Nat) :
    ∀ c mid s, (measFor env pulse tid c mid s).2.1 = mid + c := by
  intro c
  induction c with
  | zero => intro mid s; rfl
  | succ c ih =>
      intro mid s
      show (measFor env pulse tid c (mid + 1)
              (wstep pulse (wstep pulse (wstep pulse (wstep pulse s))))).2.1 = _
      rw [ih (mid + 1) (wstep pulse (wstep pulse (wstep pulse (wstep pulse s))))]
      omega

theorem measFor_state (env : Nat → SettingsV) (pulse : Nat → Bool) (tid : Nat) :
    ∀ c mid s, (measFor env pulse tid c mid s).2.2
      = ⟨s.t + 4 * c, s.flag || anyPulse pulse s.t (4 * c)⟩ := by
  intro c
  induction c with
  | zero =>
      intro mid s
      cases s with
      | mk t f => simp [measFor, anyPulse]
  | succ c ih =>
      intro mid s
      show (measFor env pulse tid c (mid + 1)
              (wstep pulse (wstep pulse (wstep pulse (wstep pulse s))))).2.2 = _
      rw [ih (mid + 1) (wstep pulse (wstep pulse (wstep pulse (wstep pulse s))))]
      have h4 : 4 * (c + 1) = 4 + 4 * c := by omega
      rw [h4, anyPulse_add pulse 4 (4 * c) s.t]
      simp only [wstep, WSt.mk.injEq]
      constructor
      · omega
      · simp [anyPulse, Bool.or_assoc]

theorem measEvs_join (env : Nat → SettingsV) (tid : Nat) :
    ∀ c mid t, measEvs env tid c mid t
      = List.flatten ((List.range c).map (fun i =>
          [WEv.record tid (mid + i) ((env (t + 4 * i)).local_timezone),
           WEv.sleepFor ((env (t + 4 * i + 2)).measurement_interval)])) := by
  intro c
  induction c with
  | zero => intro mid t; simp [measEvs]
  | succ c ih =>
      intro mid t
      rw [List.range_succ_eq_map, List.map_cons, List.flatten_cons, List.map_map]
      have harg : ((fun i => [WEv.record tid (mid + i) ((env (t + 4 * i)).local_timezone),
            WEv.sleepFor ((env (t + 4 * i + 2)).measurement_interval)]) ∘ Nat.succ)
          = fun i => [WEv.record tid (mid + 1 + i) ((env (t + 4 + 4 * i)).local_timezone),
            WEv.sleepFor ((env (t + 4 + 4 * i + 2)).measurement_interval)] := by
        funext i
        have h1 : mid + Nat.succ i = mid + 1 + i := by omega
        have h2 : t + 4 * Nat.succ i = t + 4 + 4 * i := by omega
        have h3 : t + 4 * Nat.succ i + 2 = t + 4 + 4 * i + 2 := by omega
        simp only [Function.comp, h1, h2, h3]
      rw [harg, measEvs, ih (mid + 1) (t + 4)]
      simp

theorem recordsOf_append (a b : List WEv) : recordsOf (a ++ b) = recordsOf a ++ recordsOf b := by
  simp [recordsOf]

theorem recordsOf_measEvs (env : Nat → SettingsV) (tid : Nat) :
    ∀ c mid t, recordsOf (measEvs env tid c mid t)
      = (List.range' mid c).map (fun m => (tid, m)) := by
  intro c
  induction c with
  | zero => intro mid t; rfl
  | succ c ih =>
      intro mid t
      rw [List.range'_succ, List.map_cons]
      show (tid, mid) :: recordsOf (measEvs env tid c (mid + 1) (t + 4)) = _
      rw [ih (mid + 1) (t + 4)]

theorem cycleBody_spec (env : Nat → SettingsV) (pulse : Nat → Bool) (tid mid : Nat) (s : WSt) :
    ∃ n, (cycleBody env pulse tid mid s).2.1 = mid + n
      ∧ recordsOf (cycleBody env pulse tid mid s).1
          = (List.range' mid n).map (fun m => (tid, m)) := by
  by_cases hex : (env s.t).extra_measurement = true
  · simp only [cycleBody, hex, if_true]
    refine ⟨(env (wstep pulse (wstep pulse s)).t).measurements_per_trigger, ?_, ?_⟩
    · rw [measFor_mid]
    · rw [recordsOf_append, measFor_evs, recordsOf_measEvs]
      rfl
  · rw [Bool.not_eq_true] at hex
    simp only [cycleBody, hex, Bool.false_eq_true, if_false]
    refine ⟨(env (wstep pulse s).t).measurements_per_trigger, ?_, ?_⟩
    · rw [measFor_mid]
    · rw [recordsOf_append, measFor_evs, recordsOf_measEvs]
      rfl

theorem chain_le_const (tid : Nat) :
    ∀ l : List Nat, List.Chain' (fun a b : Nat × Nat => a.1 ≤ b.1)
      (l.map (fun m => (tid, m))) := by
  intro l
  rw [List.chain'_map]
  induction l with
  | nil => exact List.chain'_nil
  | cons a t ih =>
      cases t with
      | nil => simp
      | cons b t2 => exact List.chain'_cons.2 ⟨le_refl tid, ih⟩

theorem head_snd_range' (rs : List (Nat × Nat)) (m : Nat)
    (h : rs.map Prod.snd = List.range' m rs.length) :
    ∀ r, rs.head? = some r → r.2 = m := by
  intro r hr
  cases rs with
  | nil => simp at hr
  | cons a t =>
      simp only [List.head?_cons, Option.some.injEq] at hr
      subst hr
      rw [List.map_cons, List.length_cons, List.range'_succ] at h
      simp only [List.cons.injEq] at h
      exact h.1

theorem chain_recStep_of :
    ∀ (rs : List (Nat × Nat)) (m : Nat),
      rs.map Prod.snd = List.range' m rs.length →
      List.Chain' (fun a b : Nat × Nat => a.1 ≤ b.1) rs →
      List.Chain' recStep rs := by
  intro rs
  induction rs with
  | nil => intro m _ _; exact List.chain'_nil
  | cons a t ih =>
      intro m hm hc
      cases t with
      | nil => simp
      | cons b t2 =>
          rw [List.chain'_cons] at hc
          obtain ⟨hab, hc2⟩ := hc
          rw [List.map_cons, List.map_cons, List.length_cons, List.length_cons,
            List.range'_succ, List.range'_succ] at hm
          simp only [List.cons.injEq] at hm
          have ha : a.2 = m := hm.1
          have hb : b.2 = m + 1 := hm.2.1
          have hm2 : List.map Prod.snd t2 = List.range' (m + 1 + 1) t2.length := hm.2.2
          refine List.chain'_cons.2 ⟨?_, ih (m + 1) ?_ hc2⟩
          · by_cases heq : a.1 = b.1
            · exact Or.inl ⟨heq, by omega⟩
            · exact Or.inr ⟨lt_of_le_of_ne hab heq, Or.inr (by omega)⟩
          · rw [List.map_cons, List.length_cons, List.range'_succ, hb, hm2]

theorem innerLoop_spec (env : Nat → SettingsV) (pulse : Nat → Bool) :
    ∀ fuel tid mid s evs tid2 mid2 s2,
      innerLoop env pulse fuel tid mid s = some (evs, tid2, mid2, s2) →
      (recordsOf evs).map Prod.snd = List.range' mid (recordsOf evs).length
      ∧ List.Chain' (fun a b : Nat × Nat => a.1 ≤ b.1) (recordsOf evs)
      ∧ (∀ r ∈ recordsOf evs, tid ≤ r.1 ∧ r.1 < tid2)
      ∧ tid < tid2 := by
  intro fuel
  induction fuel with
  | zero =>
      intro tid mid s evs tid2 mid2 s2 h
      simp [innerLoop] at h
  | succ fuel ih =>
      intro tid mid s evs tid2 mid2 s2 h
      obtain ⟨n, hn, hrec⟩ := cycleBody_spec env pulse tid mid s
      have hfst : ∀ r ∈ recordsOf (cycleBody env pulse tid mid s).1, r.1 = tid := by
        rw [hrec]
        intro r hr
        obtain ⟨m, _, rfl⟩ := List.mem_map.1 hr
        rfl
      have hsndLen : (recordsOf (cycleBody env pulse tid mid s).1).length = n := by
        rw [hrec, List.length_map, List.length_range']
      have hsnd : (recordsOf (cycleBody env pulse tid mid s).1).map Prod.snd
          = List.range' mid n := by
        rw [hrec, List.map_map]
        have : (Prod.snd ∘ fun m => ((tid, m) : Nat × Nat)) = fun m => m := rfl
        rw [this, List.map_id']
      have hchain : List.Chain' (fun a b : Nat × Nat => a.1 ≤ b.1)
          (recordsOf (cycleBody env pulse tid mid s).1) := by
        rw [hrec]; exact chain_le_const tid _
      simp only [innerLoop] at h
      split_ifs at h with h1 h2 h3
      · -- SINGLE: break after one cycle
        simp only [Option.some.injEq, Prod.mk.injEq] at h
        obtain ⟨hevs, _, _, _⟩ := h
        subst hevs
        refine ⟨by rw [hsndLen, hsnd], hchain, ?_, by omega⟩
        intro r hr
        have := hfst r hr
        omega
      · -- TOGGLE_CONTINUOUS and the event is set: break after this cycle
        simp only [Option.some.injEq, Prod.mk.injEq] at h
        obtain ⟨hevs, _, _, _⟩ := h
        subst hevs
        refine ⟨by rw [hsndLen, hsnd], hchain, ?_, by omega⟩
        intro r hr
        have := hfst r hr
        omega
      · -- TOGGLE_CONTINUOUS, event not set: loop again
        rw [Option.map_eq_some'] at h
        obtain ⟨⟨evs', tid2', mid2', s2'⟩, hx, hgx⟩ := h
        simp only [Prod.mk.injEq] at hgx
        obtain ⟨hevs, htid, hmid, hs⟩ := hgx
        subst hevs htid hmid hs
        obtain ⟨ihA, ihB, ihC, ihD⟩ := ih (tid + 1) (cycleBody env pulse tid mid s).2.1
          _ evs' _ _ _ hx
        rw [hn] at ihA
        refine ⟨?_, ?_, ?_, by omega⟩
        · rw [recordsOf_append, List.map_append, List.length_append, hsnd, hsndLen, ihA,
            List.range'_append_1, Nat.add_comm (recordsOf evs').length n]
        · rw [recordsOf_append]
          refine List.chain'_append.2 ⟨hchain, ihB, ?_⟩
          intro x hx2 y hy
          have hxm : x.1 = tid := hfst x (List.mem_of_mem_getLast? hx2)
          have hym : tid + 1 ≤ y.1 := (ihC y (List.mem_of_mem_head? hy)).1
          omega
        · rw [recordsOf_append]
          intro r hr
          rcases List.mem_append.1 hr with hl | hl
          · have := hfst r hl
            omega
          · have := ihC r hl
            omega
      · -- mode observed as neither SINGLE-first nor TOGGLE-second: loop again
        rw [Option.map_eq_some'] at h
        obtain ⟨⟨evs', tid2', mid2', s2'⟩, hx, hgx⟩ := h
        simp only [Prod.mk.injEq] at hgx
        obtain ⟨hevs, htid, hmid, hs⟩ := hgx
        subst hevs htid hmid hs
        obtain ⟨ihA, ihB, ihC, ihD⟩ := ih (tid + 1) (cycleBody env pulse tid mid s).2.1
          _ evs' _ _ _ hx
        rw [hn] at ihA
        refine ⟨?_, ?_, ?_, by omega⟩
        · rw [recordsOf_append, List.map_append, List.length_append, hsnd, hsndLen, ihA,
            List.range'_append_1, Nat.add_comm (recordsOf evs').length n]
        · rw [recordsOf_append]
          refine List.chain'_append.2 ⟨hchain, ihB, ?_⟩
          intro x hx2 y hy
          have hxm : x.1 = tid := hfst x (List.mem_of_mem_getLast? hx2)
          have hym : tid + 1 ≤ y.1 := (ihC y (List.mem_of_mem_head? hy)).1
          omega
        · rw [recordsOf_append]
          intro r hr
          rcases List.mem_append.1 hr with hl | hl
          · have := hfst r hl
            omega
          · have := ihC r hl
            omega

theorem outerOnce_spec (env : Nat → SettingsV) (pulse : Nat → Bool) (wf inf tid : Nat)
    (s : WSt) (evs : List WEv) (tid2 : Nat) (s2 : WSt)
    (h : outerOnce env pulse wf inf tid s = some (evs, tid2, s2)) :
    (recordsOf evs).map Prod.snd = List.range' 0 (recordsOf evs).length
    ∧ List.Chain' (fun a b : Nat × Nat => a.1 ≤ b.1) (recordsOf evs)
    ∧ (∀ r ∈ recordsOf evs, tid ≤ r.1 ∧ r.1 < tid2)
    ∧ tid < tid2 := by
  unfold outerOnce at h
  split at h
  · exact absurd h (by simp)
  · rename_i s1 hw
    dsimp only at h
    split at h
    · exact absurd h (by simp)
    · rename_i evs' tid2' mid2' s4 hi
      simp only [Option.some.injEq, Prod.mk.injEq] at h
      obtain ⟨hevs, htid, hs⟩ := h
      have hre : recordsOf evs = recordsOf evs' := by
        rw [← hevs]
        simp [recordsOf]
      obtain ⟨hA, hB, hC, hD⟩ := innerLoop_spec env pulse inf tid 0
        (wstep pulse (clearEv s1)) evs' tid2' mid2' s4 hi
      rw [hre, ← htid]
      exact ⟨hA, hB, hC, hD⟩

theorem workerLoop_spec (env : Nat → SettingsV) (pulse : Nat → Bool) (wf inf : Nat) :
    ∀ runs tid s,
      List.Chain' recStep (recordsOf (workerLoop env pulse wf inf runs tid s))
      ∧ (∀ r ∈ recordsOf (workerLoop env pulse wf inf runs tid s), tid ≤ r.1)
      ∧ (∀ r, (recordsOf (workerLoop env pulse wf inf runs tid s)).head? = some r
          → r.2 = 0) := by
  intro runs
  induction runs with
  | zero =>
      intro tid s
      exact ⟨List.chain'_nil, by simp [workerLoop, recordsOf], by simp [workerLoop, recordsOf]⟩
  | succ runs ih =>
      intro tid s
      cases ho : outerOnce env pulse wf inf tid s with
      | none =>
          have hw : workerLoop env pulse wf inf (runs + 1) tid s = [] := by
            simp [workerLoop, ho]
          rw [hw]
          exact ⟨List.chain'_nil, by simp [recordsOf], by simp [recordsOf]⟩
      | some y =>
          obtain ⟨evs, tid2, s2⟩ := y
          have hw : workerLoop env pulse wf inf (runs + 1) tid s
              = evs ++ workerLoop env pulse wf inf runs tid2 s2 := by
            simp [workerLoop, ho]
          obtain ⟨hA, hB, hC, hD⟩ := outerOnce_spec env pulse wf inf tid s evs tid2 s2 ho
          obtain ⟨ihChain, ihBound, ihHead⟩ := ih tid2 s2
          rw [hw, recordsOf_append]
          refine ⟨?_, ?_, ?_⟩
          · refine List.chain'_append.2 ⟨chain_recStep_of _ 0 hA hB, ihChain, ?_⟩
            intro x hx y hy
            have hxlt : x.1 < tid2 := (hC x (List.mem_of_mem_getLast? hx)).2
            have hyge : tid2 ≤ y.1 := ihBound y (List.mem_of_mem_head? hy)
            have hy0 : y.2 = 0 := ihHead y hy
            exact Or.inr ⟨by omega, Or.inl hy0⟩
          · intro r hr
            rcases List.mem_append.1 hr with hl | hl
            · exact (hC r hl).1
            · have := ihBound r hl
              omega
          · intro r hr
            rw [List.head?_append] at hr
            cases hh : (recordsOf evs).head? with
            | some a =>
                rw [hh] at hr
                rw [Option.or_some] at hr
                have : r = a := by
                  simpa using hr.symm
                subst this
                exact head_snd_range' (recordsOf evs) 0 hA r hh
            | none =>
                rw [hh] at hr
                simp only [Option.none_or] at hr
                exact ihHead r hr

theorem cycleLen_eq (sv : SettingsV) : cycleLen sv = cbLen sv + 3 := by
  unfold cycleLen cbLen
  by_cases hex : sv.extra_measurement = true
  · simp [hex]
  · rw [Bool.not_eq_true] at hex
    simp [hex]

theorem cycleBody_mpt (env : Nat → SettingsV) (pulse : Nat → Bool) (tid mid : Nat) (s : WSt)
    (n : Nat) (hm : ∀ t, (env t).measurements_per_trigger = n) :
    (cycleBody env pulse tid mid s).2.1 = mid + n
    ∧ recordsOf (cycleBody env pulse tid mid s).1
        = (List.range' mid n).map (fun m => (tid, m)) := by
  by_cases hex : (env s.t).extra_measurement = true
  · simp only [cycleBody, hex, if_true, hm]
    exact ⟨measFor_mid env pulse tid n mid _,
      by rw [recordsOf_append, measFor_evs, recordsOf_measEvs]; rfl⟩
  · rw [Bool.not_eq_true] at hex
    simp only [cycleBody, hex, Bool.false_eq_true, if_false, hm]
    exact ⟨measFor_mid env pulse tid n mid _,
      by rw [recordsOf_append, measFor_evs, recordsOf_measEvs]; rfl⟩

theorem cycleBody_const (sv : SettingsV) (env : Nat → SettingsV) (pulse : Nat → Bool)
    (hc : ∀ t, env t = sv) (tid mid : Nat) (s : WSt) :
    (cycleBody env pulse tid mid s).2.1 = mid + sv.measurements_per_trigger
    ∧ recordsOf (cycleBody env pulse tid mid s).1
        = (List.range' mid sv.measurements_per_trigger).map (fun m => (tid, m))
    ∧ (cycleBody env pulse tid mid s).2.2
        = ⟨s.t + cbLen sv, s.flag || anyPulse pulse s.t (cbLen sv)⟩ := by
  have hm : ∀ t, (env t).measurements_per_trigger = sv.measurements_per_trigger :=
    fun t => by rw [hc]
  obtain ⟨h1, h2⟩ := cycleBody_mpt env pulse tid mid s sv.measurements_per_trigger hm
  refine ⟨h1, h2, ?_⟩
  by_cases hex : sv.extra_measurement = true
  · have hex' : (env s.t).extra_measurement = true := by rw [hc]; exact hex
    simp only [cycleBody, hex', if_true]
    rw [measFor_state]
    have hlen : cbLen sv = 3 + 4 * sv.measurements_per_trigger := by
      unfold cbLen; simp [hex]; omega
    rw [hlen, hm]
    simp only [wstep, WSt.mk.injEq]
    constructor
    · omega
    · rw [anyPulse_add pulse 3 (4 * sv.measurements_per_trigger) s.t]
      simp [anyPulse, Bool.or_assoc]
  · have hex' : (env s.t).extra_measurement = false := by
      rw [hc]; rw [Bool.not_eq_true] at hex; exact hex
    simp only [cycleBody, hex', Bool.false_eq_true, if_false]
    rw [measFor_state]
    have hlen : cbLen sv = 2 + 4 * sv.measurements_per_trigger := by
      rw [Bool.not_eq_true] at hex
      unfold cbLen; simp [hex]; omega
    rw [hlen, hm]
    simp only [wstep, WSt.mk.injEq]
    constructor
    · omega
    · rw [anyPulse_add pulse 2 (4 * sv.measurements_per_trigger) s.t]
      simp [anyPulse, Bool.or_assoc]

theorem innerLoop_single (env : Nat → SettingsV) (pulse : Nat → Bool) (n : Nat)
    (htb : ∀ t, (env t).trigger_behavior = TriggerBehavior.SINGLE)
    (hm : ∀ t, (env t).measurements_per_trigger = n)
    (inf tid mid : Nat) (s : WSt) :
    innerLoop env pulse (inf + 1) tid mid s
      = some ((cycleBody env pulse tid mid s).1, tid + 1, mid + n,
          wstep pulse (cycleBody env pulse tid mid s).2.2) := by
  simp only [innerLoop]
  rw [if_pos (htb (cycleBody env pulse tid mid s).2.2.t),
    (cycleBody_mpt env pulse tid mid s n hm).1]

theorem innerLoop_toggle (sv : SettingsV) (env : Nat → SettingsV) (pulse : Nat → Bool)
    (hc : ∀ t, env t = sv)
    (htb : sv.trigger_behavior = TriggerBehavior.TOGGLE_CONTINUOUS)
    (fuel tid mid : Nat) (s : WSt) :
    innerLoop env pulse (fuel + 1) tid mid s
      = (if (s.flag || anyPulse pulse s.t (cycleLen sv)) = true
         then some ((cycleBody env pulse tid mid s).1, tid + 1,
                mid + sv.measurements_per_trigger,
                ⟨s.t + cycleLen sv, s.flag || anyPulse pulse s.t (cycleLen sv)⟩)
         else (innerLoop env pulse fuel (tid + 1) (mid + sv.measurements_per_trigger)
                ⟨s.t + cycleLen sv, s.flag || anyPulse pulse s.t (cycleLen sv)⟩).map
                (fun x => ((cycleBody env pulse tid mid s).1 ++ x.1, x.2))) := by
  obtain ⟨h1, _, h3⟩ := cycleBody_const sv env pulse hc tid mid s
  have hnotsingle : ¬ ((env (cycleBody env pulse tid mid s).2.2.t).trigger_behavior
      = TriggerBehavior.SINGLE) := by
    rw [hc, htb]
    intro hcon
    exact TriggerBehavior.noConfusion hcon
  have htoggle : (env (wstep pulse (cycleBody env pulse tid mid s).2.2).t).trigger_behavior
      = TriggerBehavior.TOGGLE_CONTINUOUS := by
    rw [hc]; exact htb
  have hs7 : wstep pulse (wstep pulse (wstep pulse
        (⟨s.t + cbLen sv, s.flag || anyPulse pulse s.t (cbLen sv)⟩ : WSt)))
      = ⟨s.t + cycleLen sv, s.flag || anyPulse pulse s.t (cycleLen sv)⟩ := by
    simp only [wstep, WSt.mk.injEq]
    constructor
    · rw [cycleLen_eq]; omega
    · rw [cycleLen_eq, anyPulse_add pulse (cbLen sv) 3 s.t]
      simp [anyPulse, Bool.or_assoc]
  simp only [innerLoop]
  rw [if_neg hnotsingle, if_pos htoggle, h1, h3, hs7]

theorem outerOnce_eq_some (env : Nat → SettingsV) (pulse : Nat → Bool)
    (wf inf tid : Nat) (s s1 : WSt) (evs' : List WEv) (tid2' mid2' : Nat) (s4 : WSt)
    (hw : waitLoop pulse wf s = some s1)
    (hi : innerLoop env pulse inf tid 0 (wstep pulse (clearEv s1))
        = some (evs', tid2', mid2', s4)) :
    outerOnce env pulse wf inf tid s
      = some (WEv.activeOn :: (evs' ++ [WEv.activeOff]), tid2', clearEv (wstep pulse s4)) := by
  unfold outerOnce
  rw [hw]
  dsimp only
  rw [hi]

theorem innerLoop_toggle_stops (sv : SettingsV) (env : Nat → SettingsV) (pulse : Nat → Bool)
    (hc : ∀ t, env t = sv)
    (htb : sv.trigger_behavior = TriggerBehavior.TOGGLE_CONTINUOUS) :
    ∀ k fuel tid mid s, s.flag = false → k < fuel →
      anyPulse pulse s.t (k * cycleLen sv) = false →
      anyPulse pulse (s.t + k * cycleLen sv) (cycleLen sv) = true →
      ∃ evs s2, innerLoop env pulse fuel tid mid s
          = some (evs, tid + (k + 1), mid + (k + 1) * sv.measurements_per_trigger, s2)
        ∧ (recordsOf evs).length = (k + 1) * sv.measurements_per_trigger := by
  intro k
  induction k with
  | zero =>
      intro fuel tid mid s hflag hk h0 h1
      obtain ⟨fuel', rfl⟩ : ∃ f, fuel = f + 1 := ⟨fuel - 1, by omega⟩
      rw [innerLoop_toggle sv env pulse hc htb, hflag]
      have h1' : anyPulse pulse s.t (cycleLen sv) = true := by
        have e1 : s.t + 0 * cycleLen sv = s.t := by omega
        rw [e1] at h1
        exact h1
      rw [h1']
      simp only [Bool.false_or]
      rw [if_pos trivial]
      refine ⟨(cycleBody env pulse tid mid s).1, ⟨s.t + cycleLen sv, true⟩, ?_, ?_⟩
      · simp only [Option.some.injEq, Prod.mk.injEq, true_and, and_true]
        ring_nf
      · rw [(cycleBody_const sv env pulse hc tid mid s).2.1, List.length_map,
          List.length_range']
        ring
  | succ k ih =>
      intro fuel tid mid s hflag hk h0 h1
      obtain ⟨fuel', rfl⟩ : ∃ f, fuel = f + 1 := ⟨fuel - 1, by omega⟩
      have hsplit : anyPulse pulse s.t (cycleLen sv) = false
          ∧ anyPulse pulse (s.t + cycleLen sv) (k * cycleLen sv) = false := by
        have e1 : (k + 1) * cycleLen sv = cycleLen sv + k * cycleLen sv := by ring
        rw [e1, anyPulse_add] at h0
        exact Bool.or_eq_false_iff.1 h0
      rw [innerLoop_toggle sv env pulse hc htb, hflag, hsplit.1]
      rw [if_neg (by simp)]
      have hrec := ih fuel' (tid + 1) (mid + sv.measurements_per_trigger)
        ⟨s.t + cycleLen sv, false || false⟩ rfl (by omega)
        (by
          show anyPulse pulse (s.t + cycleLen sv) (k * cycleLen sv) = false
          exact hsplit.2)
        (by
          show anyPulse pulse (s.t + cycleLen sv + k * cycleLen sv) (cycleLen sv) = true
          have e2 : s.t + cycleLen sv + k * cycleLen sv
              = s.t + (k + 1) * cycleLen sv := by ring
          rw [e2]
          exact h1)
      obtain ⟨evs', s2', heq, hlen⟩ := hrec
      refine ⟨(cycleBody env pulse tid mid s).1 ++ evs', s2', ?_, ?_⟩
      · rw [heq]
        simp only [Option.map_some', Option.some.injEq, Prod.mk.injEq, true_and, and_true]
        refine ⟨by omega, by ring⟩
      · rw [recordsOf_append, List.length_append,
          (cycleBody_const sv env pulse hc tid mid s).2.1, List.length_map,
          List.length_range', hlen]
        ring

theorem innerLoop_toggle_runs_forever (sv : SettingsV) (env : Nat → SettingsV)
    (pulse : Nat → Bool) (hc : ∀ t, env t = sv)
    (htb : sv.trigger_behavior = TriggerBehavior.TOGGLE_CONTINUOUS) :
    ∀ fuel tid mid s, s.flag = false →
      anyPulse pulse s.t (fuel * cycleLen sv) = false →
      innerLoop env pulse fuel tid mid s = none := by
  intro fuel
  induction fuel with
  | zero => intro tid mid s _ _; rfl
  | succ f ih =>
      intro tid mid s hflag h0
      have hsplit : anyPulse pulse s.t (cycleLen sv) = false
          ∧ anyPulse pulse (s.t + cycleLen sv) (f * cycleLen sv) = false := by
        have e1 : (f + 1) * cycleLen sv = cycleLen sv + f * cycleLen sv := by ring
        rw [e1, anyPulse_add] at h0
        exact Bool.or_eq_false_iff.1 h0
      rw [innerLoop_toggle sv env pulse hc htb, hflag, hsplit.1]
      rw [if_neg (by simp)]
      rw [ih (tid + 1) (mid + sv.measurements_per_trigger)
        ⟨s.t + cycleLen sv, false || false⟩ rfl
        (by
          show anyPulse pulse (s.t + cycleLen sv) (f * cycleLen sv) = false
          exact hsplit.2)]
      rfl

/-! ### Claim theorems: C1, C3, C6, C8 -/

/-- Claim C1 counterexample: with `TOGGLE_CONTINUOUS` mode, one trigger
activation (pulse at tick 2) runs two trigger cycles before the stop pulse
(tick 22) is seen; the worker writes records (trigger 0, seq 0) and
(trigger 1, seq 1): the cycle with trigger id 1 starts at measurement id
1, not 0, so the sequence id does not restart at zero at the start of
every trigger cycle as the claim states. -/
theorem sequence_id_cycle_reset_counterexample :
    recordsOf (logging_worker envC1 pulseC1 1 2 1) = [(0, 0), (1, 1)]
    ∧ perCycleReset (recordsOf (logging_worker envC1 pulseC1 1 2 1)) = false := by
  constructor
  · decide
  · decide

/-- Claim C1 (amended): for every settings history, pulse schedule and
fuel, (a) consecutive records written by `logging_worker` either continue
the same trigger cycle with the sequence id incremented by one, or open a
later cycle with a strictly larger trigger id (trigger ids are strictly
increasing across cycles and never reused) and sequence id either reset to
zero or incremented by one; (b) the first record of the trace has sequence
id zero; and (c) within each single trigger activation (`outerOnce`) the
sequence ids are exactly 0, 1, 2, ... in write order — the reset happens
at each Idle→Running transition, not at every cycle. -/
theorem trigger_and_sequence_ids (env : Nat → SettingsV) (pulse : Nat → Bool)
    (wf inf runs : Nat) :
    List.Chain' recStep (recordsOf (logging_worker env pulse wf inf runs))
    ∧ (∀ r, (recordsOf (logging_worker env pulse wf inf runs)).head? = some r → r.2 = 0)
    ∧ (∀ tid s evs tid2 s2, outerOnce env pulse wf inf tid s = some (evs, tid2, s2) →
        (recordsOf evs).map Prod.snd = List.range (recordsOf evs).length
        ∧ ∀ r ∈ recordsOf evs, tid ≤ r.1 ∧ r.1 < tid2) := by
  have hlw : recordsOf (logging_worker env pulse wf inf runs)
      = recordsOf (workerLoop env pulse wf inf runs 0 (wstep pulse (clearEv ⟨0, false⟩))) := by
    simp [logging_worker, recordsOf]
  obtain ⟨hChain, _, hHead⟩ :=
    workerLoop_spec env pulse wf inf runs 0 (wstep pulse (clearEv ⟨0, false⟩))
  refine ⟨by rw [hlw]; exact hChain, by rw [hlw]; exact hHead, ?_⟩
  intro tid s evs tid2 s2 h
  obtain ⟨hA, _, hC, _⟩ := outerOnce_spec env pulse wf inf tid s evs tid2 s2 h
  exact ⟨by rw [hA, List.range_eq_range'], hC⟩

theorem trigger_and_sequence_ids_witness :
    List.Chain' recStep (recordsOf (logging_worker envC1 pulseC1 1 2 1))
    ∧ (recordsOf [WEv.activeOn, WEv.record 0 0 "UTC", WEv.sleepFor 0,
          WEv.record 1 1 "UTC", WEv.sleepFor 0, WEv.activeOff]).map Prod.snd
        = List.range (recordsOf [WEv.activeOn, WEv.record 0 0 "UTC", WEv.sleepFor 0,
            WEv.record 1 1 "UTC", WEv.sleepFor 0, WEv.activeOff]).length :=
  ⟨(trigger_and_sequence_ids envC1 pulseC1 1 2 1).1,
   ((trigger_and_sequence_ids envC1 pulseC1 1 2 1).2.2 0 ⟨2, false⟩
      [WEv.activeOn, WEv.record 0 0 "UTC", WEv.sleepFor 0,
        WEv.record 1 1 "UTC", WEv.sleepFor 0, WEv.activeOff] 2 ⟨25, false⟩
      (by decide)).1⟩

/-- Claim C3: (a) in `SINGLE` mode (with `measurements_per_trigger = n`
throughout), every completed trigger activation produces exactly one
trigger cycle of n records — records (tid, 0) .. (tid, n-1), one trigger
id consumed — and ends with the event flag cleared, so however many
pulses arrived while Running, they are absorbed and do not start another
cycle; (b) in `TOGGLE_CONTINUOUS` mode under constant settings, if the
first pulse after the run starts is absorbed during cycle k (no pulse in
the first k cycle spans, some pulse in cycle k's span), the inner loop
runs exactly the k+1 cycles — the in-flight cycle completes and no
further cycle starts; (c) with no pulse at all, the inner loop exhausts
any fuel — cycles repeat indefinitely. -/
theorem trigger_mode_semantics :
    (∀ (env : Nat → SettingsV) (pulse : Nat → Bool) (n : Nat),
        (∀ t, (env t).trigger_behavior = TriggerBehavior.SINGLE) →
        (∀ t, (env t).measurements_per_trigger = n) →
        ∀ wf inf tid s evs tid2 s2,
          outerOnce env pulse wf (inf + 1) tid s = some (evs, tid2, s2) →
            recordsOf evs = (List.range' 0 n).map (fun m => (tid, m))
            ∧ tid2 = tid + 1 ∧ s2.flag = false)
  ∧ (∀ (sv : SettingsV) (env : Nat → SettingsV) (pulse : Nat → Bool),
        (∀ t, env t = sv) →
        sv.trigger_behavior = TriggerBehavior.TOGGLE_CONTINUOUS →
        ∀ k fuel tid mid s, s.flag = false → k < fuel →
          anyPulse pulse s.t (k * cycleLen sv) = false →
          anyPulse pulse (s.t + k * cycleLen sv) (cycleLen sv) = true →
          ∃ evs s2, innerLoop env pulse fuel tid mid s
              = some (evs, tid + (k + 1), mid + (k + 1) * sv.measurements_per_trigger, s2)
            ∧ (recordsOf evs).length = (k + 1) * sv.measurements_per_trigger)
  ∧ (∀ (sv : SettingsV) (env : Nat → SettingsV) (pulse : Nat → Bool),
        (∀ t, env t = sv) →
        sv.trigger_behavior = TriggerBehavior.TOGGLE_CONTINUOUS →
        ∀ fuel tid mid s, s.flag = false →
          anyPulse pulse s.t (fuel * cycleLen sv) = false →
          innerLoop env pulse fuel tid mid s = none) := by
  refine ⟨?_, innerLoop_toggle_stops, innerLoop_toggle_runs_forever⟩
  intro env pulse n htb hm wf inf tid s evs tid2 s2 h
  unfold outerOnce at h
  split at h
  · exact absurd h (by simp)
  · rename_i s1 hw
    dsimp only at h
    rw [innerLoop_single env pulse n htb hm inf tid 0 (wstep pulse (clearEv s1))] at h
    dsimp only at h
    simp only [Option.some.injEq, Prod.mk.injEq] at h
    obtain ⟨hevs, htid2, hs2⟩ := h
    refine ⟨?_, htid2.symm, by rw [← hs2]; rfl⟩
    rw [← hevs]
    have : recordsOf (WEv.activeOn ::
        ((cycleBody env pulse tid 0 (wstep pulse (clearEv s1))).1 ++ [WEv.activeOff]))
        = recordsOf (cycleBody env pulse tid 0 (wstep pulse (clearEv s1))).1 := by
      simp [recordsOf]
    rw [this, (cycleBody_mpt env pulse tid 0 (wstep pulse (clearEv s1)) n hm).2]

theorem trigger_mode_semantics_witness :
    recordsOf [WEv.activeOn, WEv.record 0 0 "UTC", WEv.sleepFor 0,
        WEv.record 0 1 "UTC", WEv.sleepFor 0, WEv.activeOff]
      = (List.range' 0 2).map (fun m => ((0 : Nat), m))
    ∧ (∃ evs s2, innerLoop envC3 pulseC3 2 0 0 ⟨0, false⟩
        = some (evs, 0 + (1 + 1), 0 + (1 + 1) * svC3.measurements_per_trigger, s2)
        ∧ (recordsOf evs).length = (1 + 1) * svC3.measurements_per_trigger)
    ∧ innerLoop envC3 (fun _ => false) 3 0 0 ⟨0, false⟩ = none :=
  ⟨(trigger_mode_semantics.1 envC3s pulseC3s 2 (fun _ => rfl) (fun _ => rfl) 1 0 0 ⟨2, false⟩
      [WEv.activeOn, WEv.record 0 0 "UTC", WEv.sleepFor 0,
        WEv.record 0 1 "UTC", WEv.sleepFor 0, WEv.activeOff] 1 ⟨18, false⟩ (by decide)).1,
   trigger_mode_semantics.2.1 svC3 envC3 pulseC3 (fun _ => rfl) rfl 1 2 0 0 ⟨0, false⟩
      rfl (by decide) (by decide) (by decide),
   trigger_mode_semantics.2.2 svC3 envC3 (fun _ => false) (fun _ => rfl) rfl 3 0 0 ⟨0, false⟩
      rfl (by decide)⟩

/-- Claim C6 counterexample: two settings histories that agree at every
tick through the cycle's start, its single `measurements_per_trigger`
read, and its whole first measurement (ticks 0-7) — so any field
"sampled once per trigger" would be identical — yet the in-flight cycle
behaves differently (its second sleep uses interval 7 instead of 5),
because `measurement_interval` is re-read inside the measurement loop
(main.py line 447), as is `local_timezone` (line 385 via
`log_measurement`). A concurrent mutation therefore does change the cycle
already in flight, refuting the claim. -/
theorem settings_midcycle_mutation_counterexample :
    (∀ t, t < 8 → envC6A t = envC6B t)
    ∧ (cycleBody envC6A (fun _ => false) 0 0 ⟨0, false⟩).1
        ≠ (cycleBody envC6B (fun _ => false) 0 0 ⟨0, false⟩).1 := by
  constructor
  · decide
  · decide

/-- Claim C6 (amended): the exact read schedule of one inner-loop pass:
`extra_measurement` is read once at the pass's first tick,
`measurements_per_trigger` once (just after the optional warm-up query),
and those two fix the pass's shape — the number of records equals that
single read; but `local_timezone` and `measurement_interval` are re-read
for every measurement i, at ticks start+4i and start+4i+2 of the
measurement loop, so mutations of those two take effect mid-cycle. -/
theorem settings_read_schedule (env : Nat → SettingsV) (pulse : Nat → Bool)
    (tid mid : Nat) (s : WSt) :
    (cycleBody env pulse tid mid s).1
      = (if (env s.t).extra_measurement then [WEv.extraQuery] else [])
        ++ List.flatten ((List.range
              ((env (s.t + 1 + (if (env s.t).extra_measurement then 1 else 0))
                ).measurements_per_trigger)).map
            (fun i =>
              [WEv.record tid (mid + i)
                  ((env (s.t + 2 + (if (env s.t).extra_measurement then 1 else 0)
                    + 4 * i)).local_timezone),
               WEv.sleepFor
                  ((env (s.t + 2 + (if (env s.t).extra_measurement then 1 else 0)
                    + 4 * i + 2)).measurement_interval)]))
    ∧ (cycleBody env pulse tid mid s).2.1
      = mid + (env (s.t + 1 + (if (env s.t).extra_measurement then 1 else 0))
          ).measurements_per_trigger := by
  by_cases hex : (env s.t).extra_measurement = true
  · simp only [cycleBody, hex, if_true]
    constructor
    · rw [measFor_evs, measEvs_join]
      rfl
    · rw [measFor_mid]
      rfl
  · rw [Bool.not_eq_true] at hex
    simp only [cycleBody, hex, Bool.false_eq_true, if_false]
    constructor
    · rw [measFor_evs, measEvs_join]
      rfl
    · rw [measFor_mid]
      rfl

/-- Claim C8 counterexample: the declared column order of the data file
does not begin with the zero-padded trigger id: `DATA_FILE_HEADER` starts
with "brightness" and places "trigger_id" thirteenth, so the claimed
order (trigger id first, then sequence id, then the timestamps, ...) is
not the one the code declares. -/
theorem header_order_counterexample :
    DATA_FILE_HEADER ≠ claimedHeaderOrder
    ∧ DATA_FILE_HEADER.head? = some "brightness" := by
  constructor
  · decide
  · rfl

/-- Claim C8 (amended): the header line and every record line list the
columns in the fixed `DATA_FILE_HEADER` order — brightness, count,
frequency, period, temperature, the GPS-derived UTC and local timestamps,
latitude and longitude passed through the fixed-precision rounding (5
decimal places), altitude, speed, satellite count, then the zero-padded
trigger id (width 5) and per-trigger sequence id (width 3), and finally
the two latency measurements rounded to 4 decimal places. -/
theorem row_serialization (pyRound : String → Nat → String) (sqm : SQMReading)
    (gps : GPSReport) (tid mid : Nat) (gt st : String) :
    rowFields DATA_FILE_HEADER (log_measurement_data pyRound sqm gps tid mid gt st)
      = [sqm.brightness, sqm.count, sqm.frequency, sqm.period, sqm.temperature,
         gps.time_utc, gps.time_local, pyRound gps.latitude 5, pyRound gps.longitude 5,
         gps.altitude, gps.speed, gps.satellites, zfill (toString tid) 5,
         zfill (toString mid) 3, pyRound gt 4, pyRound st 4]
    ∧ csvLine DATA_FILE_HEADER
      = "brightness,count,frequency,period,temperature,time_utc,time_local,latitude,longitude,altitude,speed,satellites,trigger_id,measurement_id,gps_time,sqm_time" := by
  constructor
  · rfl
  · rfl

end SQM
